import Mathlib

/-!
Shallow embedding of the fuzzy date/time string parser of `timeutils`
(`timeparser.go`): `ParseUnixTime`, `ParseDateTime`, `ParseDate`,
`ParseTime` and `IsDateTimeFieldValid`.

The Go code drives everything through five anchored regular expressions
compiled by `regexp.MustCompile` and matched with `FindStringSubmatch`
(leftmost-first semantics, `.` not matching a newline, `\d` = `[0-9]`).
Each regex is embedded below as an explicit matcher over `List Char`.
For these particular patterns the backtracking search is deterministic,
because every separator character class is disjoint from the digits:
a `\d{1,2}` group followed by a mandatory separator class can never
succeed with one digit when two digits are available (the second digit
would have to match the separator class), and every optional group is
followed only by patterns that cannot fail (`.*`), so the greedy choice
is final.  The matchers below implement exactly that schedule.

The process-wide flag `RequireDateTimeFieldValid` is modelled as an
explicit `req : Bool` argument threaded through each call.
-/

/-- `\d` of the Go regex engine: an ASCII digit. -/
def isDig (c : Char) : Bool := decide (48 ≤ c.toNat ∧ c.toNat ≤ 57)

/-- The character class `[-|_|\.|]` used between date fields: note that it
contains the literal `|` besides the characters `-`, `_`, `.` documented
in the source comments. -/
def isDSep (c : Char) : Bool := decide (c = '-' ∨ c = '|' ∨ c = '_' ∨ c = '.')

/-- The character class `[-|_|\.| |T]` used at the date/time boundary. -/
def isBSep (c : Char) : Bool :=
  decide (c = '-' ∨ c = '|' ∨ c = '_' ∨ c = '.' ∨ c = ' ' ∨ c = 'T')

/-- The character class `[-|_|\.|\:|]` used between time fields. -/
def isTSep (c : Char) : Bool :=
  decide (c = '-' ∨ c = '|' ∨ c = '_' ∨ c = '.' ∨ c = ':')

/-- Match `\d{n}`: exactly `n` digits, returning the digits and the rest. -/
def takeDigits : Nat → List Char → Option (List Char × List Char)
  | 0, l => some ([], l)
  | _ + 1, [] => none
  | n + 1, c :: l =>
    if isDig c then (takeDigits n l).map fun p => (c :: p.1, p.2)
    else none

/-- Match a greedy `\d{1,n}`: up to `n` leading digits (possibly none). -/
def takeDigitsUpTo : Nat → List Char → List Char × List Char
  | 0, l => ([], l)
  | _ + 1, [] => ([], [])
  | n + 1, c :: l =>
    if isDig c then
      let p := takeDigitsUpTo n l
      (c :: p.1, p.2)
    else ([], c :: l)

/-- Match a greedy `(\d{1,2})` that is followed by a digit-free pattern:
two digits if available, otherwise one. -/
def takeD12 : List Char → Option (List Char × List Char)
  | [] => none
  | c :: l =>
    if isDig c then
      match l with
      | c2 :: l2 => if isDig c2 then some ([c, c2], l2) else some ([c], c2 :: l2)
      | [] => some ([c], [])
    else none

/-- Match a one-character class `[...]`. -/
def takeClass (p : Char → Bool) : List Char → Option (List Char)
  | [] => none
  | c :: l => if p c then some l else none

/-- Match the optional boundary class `[-|_|\.| |T]?` of the
no-separator grammars (greedy; the class holds no digit, so consuming a
class character is never undone by the following `\d{2}`). -/
def skipBSep (l : List Char) : List Char :=
  match l with
  | c :: r => if isBSep c then r else c :: r
  | [] => []

/-- Match `(\.(\d{3}))?` of the separated grammars: a mandatory dot, then
exactly three digits; anything less leaves the group unmatched. -/
def msDot (l : List Char) : Option (List Char) :=
  if l.head? = some '.' then (takeDigits 3 l.tail).map Prod.fst else none

/-- Match `(\.?(\d{3}))?` of the unseparated grammars: an optional dot,
then exactly three digits; anything less leaves the group unmatched. -/
def msOptDot (l : List Char) : Option (List Char) :=
  if l.head? = some '.' then (takeDigits 3 l.tail).map Prod.fst
  else (takeDigits 3 l).map Prod.fst

/-- Match `([-|_|\.|\:|](\d{2})(\.(\d{3}))?)?`: the optional
seconds-and-milliseconds tail of the separated grammars. -/
def secMsHasSep (l : List Char) : Option (List Char) × Option (List Char) :=
  match takeClass isTSep l with
  | none => (none, none)
  | some l1 =>
    match takeDigits 2 l1 with
    | none => (none, none)
    | some (s2, l2) => (some s2, msDot l2)

/-- Match `((\d{2})(\.?(\d{3}))?)?`: the optional seconds-and-milliseconds
tail of the unseparated grammars. -/
def secMsNoSep (l : List Char) : Option (List Char) × Option (List Char) :=
  match takeDigits 2 l with
  | none => (none, none)
  | some (s2, l2) => (some s2, msOptDot l2)

/-- Capture groups of the date-time regexes, in the positions read by
`ParseDateTime` (`subs[1..5]`, `subs[7]`, `subs[9]`). -/
structure DTCaps where
  y : List Char
  mo : List Char
  d : List Char
  h : List Char
  mi : List Char
  sec : Option (List Char)
  ms : Option (List Char)
deriving DecidableEq

/-- Capture groups of the date regexes (`subs[1..3]`). -/
structure DCaps where
  y : List Char
  mo : List Char
  d : List Char
deriving DecidableEq

/-- Capture groups of the time regexes (`subs[1]`, `subs[2]`, `subs[4]`,
`subs[6]`). -/
structure TCaps where
  h : List Char
  mi : List Char
  sec : Option (List Char)
  ms : Option (List Char)
deriving DecidableEq

/-- Body of `regexDateTimeHasSep` after the lazy `^.*?`:
`(\d{4})[-|_|\.|](\d{1,2})[-|_|\.|](\d{1,2})[-|_|\.| |T](\d{1,2})`
`[-|_|\.|\:|](\d{2})([-|_|\.|\:|](\d{2})(\.(\d{3}))?)?.*`. -/
def dtHasSepBody (l : List Char) : Option DTCaps :=
  (takeDigits 4 l).bind fun yl =>
  (takeClass isDSep yl.2).bind fun l1 =>
  (takeD12 l1).bind fun mol =>
  (takeClass isDSep mol.2).bind fun l2 =>
  (takeD12 l2).bind fun dl =>
  (takeClass isBSep dl.2).bind fun l3 =>
  (takeD12 l3).bind fun hl =>
  (takeClass isTSep hl.2).bind fun l4 =>
  (takeDigits 2 l4).bind fun mil =>
  some ⟨yl.1, mol.1, dl.1, hl.1, mil.1, (secMsHasSep mil.2).1, (secMsHasSep mil.2).2⟩

/-- Body of `regexDateTimeNoSep` after the lazy `^.*?`:
`(\d{4})(\d{2})(\d{2})[-|_|\.| |T]?(\d{2})(\d{2})((\d{2})(\.?(\d{3}))?)?.*`. -/
def dtNoSepBody (l : List Char) : Option DTCaps :=
  (takeDigits 4 l).bind fun yl =>
  (takeDigits 2 yl.2).bind fun mol =>
  (takeDigits 2 mol.2).bind fun dl =>
  (takeDigits 2 (skipBSep dl.2)).bind fun hl =>
  (takeDigits 2 hl.2).bind fun mil =>
  some ⟨yl.1, mol.1, dl.1, hl.1, mil.1, (secMsNoSep mil.2).1, (secMsNoSep mil.2).2⟩

/-- Body of `regexDateHasSep`: `(\d{4})[-|_|\.|](\d{1,2})[-|_|\.|](\d{1,2}).*`. -/
def dHasSepBody (l : List Char) : Option DCaps :=
  (takeDigits 4 l).bind fun yl =>
  (takeClass isDSep yl.2).bind fun l1 =>
  (takeD12 l1).bind fun mol =>
  (takeClass isDSep mol.2).bind fun l2 =>
  (takeD12 l2).bind fun dl =>
  some ⟨yl.1, mol.1, dl.1⟩

/-- Body of `regexDateNoSep`: `(\d{4})(\d{2})(\d{2}).*`. -/
def dNoSepBody (l : List Char) : Option DCaps :=
  (takeDigits 4 l).bind fun yl =>
  (takeDigits 2 yl.2).bind fun mol =>
  (takeDigits 2 mol.2).bind fun dl =>
  some ⟨yl.1, mol.1, dl.1⟩

/-- Body of `regexTimeHasSep`:
`(\d{1,2})[-|_|\.|\:|](\d{2})([-|_|\.|\:|](\d{2})(\.(\d{3}))?)?.*`. -/
def tHasSepBody (l : List Char) : Option TCaps :=
  (takeD12 l).bind fun hl =>
  (takeClass isTSep hl.2).bind fun l1 =>
  (takeDigits 2 l1).bind fun mil =>
  some ⟨hl.1, mil.1, (secMsHasSep mil.2).1, (secMsHasSep mil.2).2⟩

/-- Body of `regexTimeNoSep`: `(\d{2})(\d{2})((\d{2})(\.?(\d{3}))?)?.*`. -/
def tNoSepBody (l : List Char) : Option TCaps :=
  (takeDigits 2 l).bind fun hl =>
  (takeDigits 2 hl.2).bind fun mil =>
  some ⟨hl.1, mil.1, (secMsNoSep mil.2).1, (secMsNoSep mil.2).2⟩

/-- Body of `regexUnixTime`: `(\d{1,10})(\d{3})?.*` — a greedy run of at
most ten digits (at least one), optionally followed by three digits. -/
def unixBody (l : List Char) : Option (List Char × Option (List Char)) :=
  if (takeDigitsUpTo 10 l).1 = [] then none
  else some ((takeDigitsUpTo 10 l).1, (takeDigits 3 (takeDigitsUpTo 10 l).2).map Prod.fst)

/-- `FindStringSubmatch` on an `^.*?…​.*` regex: the lazy prefix grows one
(non-newline) character at a time, and the first position where the body
matches yields the captures.  A newline stops the search, since `.` of
the Go engine does not match `\n` and the pattern is anchored by `^`. -/
def scanFind (body : List Char → Option α) : List Char → Option α
  | [] => body []
  | c :: l =>
    match body (c :: l) with
    | some r => some r
    | none => if c = '\n' then none else scanFind body l

def findDTHasSep : List Char → Option DTCaps := scanFind dtHasSepBody

def findDTNoSep : List Char → Option DTCaps := scanFind dtNoSepBody

def findDateHasSep : List Char → Option DCaps := scanFind dHasSepBody

def findDateNoSep : List Char → Option DCaps := scanFind dNoSepBody

def findTimeHasSep : List Char → Option TCaps := scanFind tHasSepBody

def findTimeNoSep : List Char → Option TCaps := scanFind tNoSepBody

def findUnix : List Char → Option (List Char × Option (List Char)) := scanFind unixBody

/-- `strconv.Atoi` on a capture: the captures are digit-only, and an
absent group is the empty string, for which `Atoi` reports `0` with an
(ignored) error — matching `foldl` over no digits. -/
def digitsToNat (l : List Char) : Nat := l.foldl (fun a c => a * 10 + (c.toNat - 48)) 0

def intOf (l : List Char) : Int := (digitsToNat l : Int)

def intOfOpt (o : Option (List Char)) : Int := intOf (o.getD [])

/-- `IsDateTimeFieldValid` (timeparser.go): returns `none` for valid
fields, `some reason` otherwise; a disabled policy flag short-circuits to
valid.  `%` is the Go remainder, used here only in `= 0` tests, where the
Euclidean and truncated conventions agree. -/
def IsDateTimeFieldValid (req : Bool) (year month day hour minute second : Int) :
    Option String :=
  if !req then none
  else if month < 1 ∨ month > 12 then some ("invalid month: " ++ toString month)
  else if hour < 0 ∨ hour > 23 then some ("invalid hour: " ++ toString hour)
  else if minute < 0 ∨ minute > 59 then some ("invalid minute: " ++ toString minute)
  else if second < 0 ∨ second > 59 then some ("invalid second: " ++ toString second)
  else if day < 1 ∨ day > 31 then some ("invalid day: " ++ toString day)
  else if (month = 4 ∨ month = 6 ∨ month = 9 ∨ month = 11) ∧ day > 30 then
    some ("invalid day: " ++ toString day)
  else if month = 2 then
    if year % 4 = 0 ∧ (year % 100 ≠ 0 ∨ year % 400 = 0) then
      if day > 29 then some ("invalid day for leap year: " ++ toString day)
      else none
    else if day > 28 then some ("invalid day: " ++ toString day)
    else none
  else none

/-- The result of Go's `time.Date` in its civil-field reading (the zone
only affects display and is not modelled). -/
structure GoTime where
  year : Int
  month : Int
  day : Int
  hour : Int
  minute : Int
  second : Int
  nanosecond : Int
deriving DecidableEq

/-- Modelled from the spec: the `norm` step of the external date/time
construction primitive (Go `time.Date`), which rolls an out-of-range low
unit into the next higher unit. -/
def normPair (hi lo base : Int) : Int × Int :=
  let p :=
    if lo < 0 then (hi - ((-lo - 1) / base + 1), lo + ((-lo - 1) / base + 1) * base)
    else (hi, lo)
  if p.2 ≥ base then (p.1 + p.2 / base, p.2 - p.2 / base * base) else p

/-- Go's leap-year rule (`year%4 == 0 && (year%100 != 0 || year%400 == 0)`). -/
def isLeap (y : Int) : Bool := decide (y % 4 = 0 ∧ (y % 100 ≠ 0 ∨ y % 400 = 0))

def daysInMonth (y m : Int) : Int :=
  if m = 2 then (if isLeap y then 29 else 28)
  else if m = 4 ∨ m = 6 ∨ m = 9 ∨ m = 11 then 30 else 31

/-- Modelled from the spec: the external primitive's rolling of an
out-of-range day count into adjacent months (fuel-bounded; the fuel
chosen below always suffices for the day values the parser produces). -/
def normDate : Nat → Int → Int → Int → Int × Int × Int
  | 0, y, m, d => (y, m, d)
  | fuel + 1, y, m, d =>
    if d < 1 then
      let ym := if m = 1 then (y - 1, (12 : Int)) else (y, m - 1)
      normDate fuel ym.1 ym.2 (d + daysInMonth ym.1 ym.2)
    else if d > daysInMonth y m then
      let ym := if m = 12 then (y + 1, (1 : Int)) else (y, m + 1)
      normDate fuel ym.1 ym.2 (d - daysInMonth y m)
    else (y, m, d)

/-- Modelled from the spec: the external date/time construction primitive
(Go `time.Date`), which "normalizes overflow by rolling into subsequent
units (e.g. month 13 of year Y becomes month 1 of year Y+1)".  Months are
normalized first, then nanoseconds up through hours, then the day count
is rolled through the calendar. -/
def timeDate (year month day hour minute second nsec : Int) : GoTime :=
  let ym := normPair year (month - 1) 12
  let sn := normPair second nsec 1000000000
  let ms := normPair minute sn.1 60
  let hm := normPair hour ms.1 60
  let dh := normPair day hm.1 24
  let ymd := normDate (dh.1.natAbs + 24) ym.1 (ym.2 + 1) dh.1
  ⟨ymd.1, ymd.2.1, ymd.2.2, dh.2, hm.2, ms.2, sn.2⟩

/-- One attempt of `ParseDateTime`'s inner `parse` closure: match one
regex, read the captures positionally, gate on the field validator, then
construct the timestamp. -/
def dtAttempt (req : Bool) (find : List Char → Option DTCaps) (s : List Char) :
    Option GoTime :=
  match find s with
  | none => none
  | some c =>
    if (IsDateTimeFieldValid req (intOf c.y) (intOf c.mo) (intOf c.d)
        (intOf c.h) (intOf c.mi) (intOfOpt c.sec)).isSome then none
    else
      some (timeDate (intOf c.y) (intOf c.mo) (intOf c.d) (intOf c.h)
        (intOf c.mi) (intOfOpt c.sec) (intOfOpt c.ms * 1000000))

/-- `ParseDateTime`: the separated grammar is tried first; on a `nil`
outcome (no structural match, or validator rejection) the unseparated
grammar is tried with the same validation step. -/
def ParseDateTime (req : Bool) (s : List Char) : Option GoTime :=
  match dtAttempt req findDTHasSep s with
  | some t => some t
  | none => dtAttempt req findDTNoSep s

/-- One attempt of `ParseDate`'s inner `parse` closure. -/
def dAttempt (req : Bool) (find : List Char → Option DCaps) (s : List Char) :
    Option GoTime :=
  match find s with
  | none => none
  | some c =>
    if (IsDateTimeFieldValid req (intOf c.y) (intOf c.mo) (intOf c.d) 0 0 0).isSome
    then none
    else some (timeDate (intOf c.y) (intOf c.mo) (intOf c.d) 0 0 0 0)

/-- `ParseDate`: separated date grammar first, then unseparated. -/
def ParseDate (req : Bool) (s : List Char) : Option GoTime :=
  match dAttempt req findDateHasSep s with
  | some t => some t
  | none => dAttempt req findDateNoSep s

/-- One attempt of `ParseTime`'s inner `parse` closure: the date is
anchored to year 0, month 1, day 1, both in the validator call and in the
constructed timestamp. -/
def tAttempt (req : Bool) (find : List Char → Option TCaps) (s : List Char) :
    Option GoTime :=
  match find s with
  | none => none
  | some c =>
    if (IsDateTimeFieldValid req 0 1 1 (intOf c.h) (intOf c.mi) (intOfOpt c.sec)).isSome
    then none
    else
      some (timeDate 0 1 1 (intOf c.h) (intOf c.mi) (intOfOpt c.sec)
        (intOfOpt c.ms * 1000000))

/-- `ParseTime`: separated time grammar first, then unseparated. -/
def ParseTime (req : Bool) (s : List Char) : Option GoTime :=
  match tAttempt req findTimeHasSep s with
  | some t => some t
  | none => tAttempt req findTimeNoSep s

/-- `ParseUnixTime`: one match of the Unix-epoch regex; the result is
`time.Unix(second, nanosecond)`, modelled as the pair
(epoch seconds, nanoseconds).  No field validation is involved. -/
def ParseUnixTime (s : List Char) : Option (Int × Int) :=
  match findUnix s with
  | none => none
  | some su =>
    some (intOf su.1, (match su.2 with
      | some m3 => intOf m3 * 1000000
      | none => 0))

/-! ## Basic properties of the matching primitives -/

theorem takeDigits_eq_some {n : Nat} {l ds r : List Char}
    (h : takeDigits n l = some (ds, r)) :
    ds.length = n ∧ l = ds ++ r ∧ ∀ c ∈ ds, isDig c = true := by
  induction n generalizing l ds r with
  | zero =>
    simp only [takeDigits, Option.some.injEq, Prod.mk.injEq] at h
    rcases h with ⟨rfl, rfl⟩
    simp
  | succ n ih =>
    cases l with
    | nil => simp [takeDigits] at h
    | cons c l' =>
      simp only [takeDigits] at h
      by_cases hc : isDig c
      · rw [if_pos hc, Option.map_eq_some'] at h
        rcases h with ⟨p, hp, hpr⟩
        rcases p with ⟨ds', r'⟩
        rcases ih hp with ⟨hlen, hsplit, hdig⟩
        simp only [Prod.mk.injEq] at hpr
        rcases hpr with ⟨rfl, rfl⟩
        refine ⟨by simp [hlen], by simp [hsplit], ?_⟩
        intro a ha
        rcases List.mem_cons.1 ha with rfl | ha
        · exact hc
        · exact hdig a ha
      · rw [if_neg hc] at h; exact absurd h (by simp)

theorem takeDigits_append {n : Nat} {ds : List Char} (r : List Char)
    (hlen : ds.length = n) (hdig : ∀ c ∈ ds, isDig c = true) :
    takeDigits n (ds ++ r) = some (ds, r) := by
  induction ds generalizing n with
  | nil => subst hlen; simp [takeDigits]
  | cons c ds' ih =>
    subst hlen
    have hc : isDig c = true := hdig c (by simp)
    have ih' := ih rfl (fun a ha => hdig a (List.mem_cons_of_mem _ ha))
    simp [takeDigits, hc, ih']

theorem takeDigits_none_short {n : Nat} {ds r : List Char}
    (hlen : ds.length < n) (hdig : ∀ c ∈ ds, isDig c = true)
    (hr : ∀ a, r.head? = some a → isDig a = false) :
    takeDigits n (ds ++ r) = none := by
  induction ds generalizing n with
  | nil =>
    cases n with
    | zero => omega
    | succ n =>
      cases r with
      | nil => simp [takeDigits]
      | cons a r' =>
        have := hr a (by simp)
        simp [takeDigits, this]
  | cons c ds' ih =>
    cases n with
    | zero => omega
    | succ n =>
      have hc : isDig c = true := hdig c (by simp)
      have : takeDigits n (ds' ++ r) = none := by
        refine ih ?_ (fun a ha => hdig a (List.mem_cons_of_mem _ ha))
        simpa using Nat.lt_of_succ_lt_succ (by simpa using hlen)
      simp [takeDigits, hc, this]

theorem scanFind_skip {α : Type} {body : List Char → Option α}
    (hbody : ∀ c l', isDig c = false → body (c :: l') = none) :
    ∀ pre l, (∀ c ∈ pre, isDig c = false ∧ c ≠ '\n') →
      scanFind body (pre ++ l) = scanFind body l := by
  intro pre
  induction pre with
  | nil => intro l _; rfl
  | cons a pre' ih =>
    intro l hpre
    have ha := hpre a (by simp)
    have hfail : body (a :: (pre' ++ l)) = none := hbody _ _ ha.1
    have hrec := ih l (fun c hc => hpre c (List.mem_cons_of_mem _ hc))
    simp [scanFind, hfail, ha.2, hrec]

theorem scanFind_isSome_append {α : Type} {body : List Char → Option α}
    {pre l : List Char} (hpre : ∀ a ∈ pre, a ≠ '\n')
    (hl : (body l).isSome = true) :
    (scanFind body (pre ++ l)).isSome = true := by
  induction pre with
  | nil =>
    cases l with
    | nil => simpa [scanFind] using hl
    | cons c l' =>
      rcases Option.isSome_iff_exists.1 hl with ⟨r, hr⟩
      simp [scanFind, hr]
  | cons a pre' ih =>
    have ha := hpre a (by simp)
    simp only [List.cons_append, scanFind]
    cases hb : body (a :: (pre' ++ l)) with
    | some r => simp
    | none =>
      rw [if_neg ha]
      exact ih (fun c hc => hpre c (List.mem_cons_of_mem _ hc))

theorem scanFind_none {α : Type} {body : List Char → Option α} :
    ∀ {l : List Char}, (∀ t, t <:+ l → body t = none) → scanFind body l = none := by
  intro l
  induction l with
  | nil => intro h; simpa [scanFind] using h [] (by simp)
  | cons c l' ih =>
    intro h
    have hfail : body (c :: l') = none := h (c :: l') List.suffix_rfl
    simp only [scanFind, hfail]
    split
    · rfl
    · exact ih fun t ht => h t (ht.trans (List.suffix_cons c l'))

theorem scanFind_eq_some {α : Type} {body : List Char → Option α} :
    ∀ {l : List Char} {r : α}, scanFind body l = some r → ∃ t, t <:+ l ∧ body t = some r := by
  intro l
  induction l with
  | nil => intro r h; exact ⟨[], by simp, by simpa [scanFind] using h⟩
  | cons c l' ih =>
    intro r h
    rw [scanFind] at h
    split at h
    next r' heq =>
      injection h with h
      subst h
      exact ⟨c :: l', List.suffix_rfl, heq⟩
    next heq =>
      split at h
      · exact absurd h (by simp)
      · rcases ih h with ⟨t, ht, hbt⟩
        exact ⟨t, ht.trans (List.suffix_cons c l'), hbt⟩

/-! ## Digits versus separator classes -/

theorem isDig_not_sep {c : Char} (h : isDig c = true) :
    isDSep c = false ∧ isBSep c = false ∧ isTSep c = false ∧ c ≠ '.' ∧ c ≠ '\n' := by
  simp only [isDig, decide_eq_true_eq] at h
  refine ⟨?_, ?_, ?_, ?_, ?_⟩
  · simp only [isDSep, decide_eq_false_iff_not]
    rintro (rfl | rfl | rfl | rfl) <;> exact absurd h (by decide)
  · simp only [isBSep, decide_eq_false_iff_not]
    rintro (rfl | rfl | rfl | rfl | rfl | rfl) <;> exact absurd h (by decide)
  · simp only [isTSep, decide_eq_false_iff_not]
    rintro (rfl | rfl | rfl | rfl | rfl) <;> exact absurd h (by decide)
  · rintro rfl; exact absurd h (by decide)
  · rintro rfl; exact absurd h (by decide)

theorem takeDigitsUpTo_append {n : Nat} {ds : List Char} (r : List Char)
    (hlen : n ≤ ds.length) (hdig : ∀ c ∈ ds, isDig c = true) :
    takeDigitsUpTo n (ds ++ r) = (ds.take n, ds.drop n ++ r) := by
  induction n generalizing ds with
  | zero => simp [takeDigitsUpTo]
  | succ n ih =>
    cases ds with
    | nil => simp at hlen
    | cons c ds' =>
      have hc : isDig c = true := hdig c (by simp)
      have ih' := @ih ds' (by simpa using hlen)
        (fun a ha => hdig a (List.mem_cons_of_mem _ ha))
      simp [takeDigitsUpTo, hc, ih']

theorem takeDigitsUpTo_fst_nil {n : Nat} {l : List Char} :
    (takeDigitsUpTo n l).1 = [] ↔ n = 0 ∨ l = [] ∨ ∀ a, l.head? = some a → isDig a = false := by
  cases n with
  | zero => simp [takeDigitsUpTo]
  | succ n =>
    cases l with
    | nil => simp [takeDigitsUpTo]
    | cons c l' =>
      by_cases hc : isDig c
      · simp [takeDigitsUpTo, hc]
      · simp only [takeDigitsUpTo, if_neg hc]
        simp [hc]

/-! ## Body matchers on an input whose head is not a digit -/

theorem dtHasSepBody_nondigit {c : Char} {l : List Char} (h : isDig c = false) :
    dtHasSepBody (c :: l) = none := by
  simp [dtHasSepBody, takeDigits, h]

theorem dtNoSepBody_nondigit {c : Char} {l : List Char} (h : isDig c = false) :
    dtNoSepBody (c :: l) = none := by
  simp [dtNoSepBody, takeDigits, h]

theorem dHasSepBody_nondigit {c : Char} {l : List Char} (h : isDig c = false) :
    dHasSepBody (c :: l) = none := by
  simp [dHasSepBody, takeDigits, h]

theorem dNoSepBody_nondigit {c : Char} {l : List Char} (h : isDig c = false) :
    dNoSepBody (c :: l) = none := by
  simp [dNoSepBody, takeDigits, h]

theorem tHasSepBody_nondigit {c : Char} {l : List Char} (h : isDig c = false) :
    tHasSepBody (c :: l) = none := by
  simp [tHasSepBody, takeD12, h]

theorem tNoSepBody_nondigit {c : Char} {l : List Char} (h : isDig c = false) :
    tNoSepBody (c :: l) = none := by
  simp [tNoSepBody, takeDigits, h]

theorem unixBody_nondigit {c : Char} {l : List Char} (h : isDig c = false) :
    unixBody (c :: l) = none := by
  simp [unixBody, takeDigitsUpTo, h]

/-- On an all-digit input the separated date-time grammar can never match:
after the four year digits the mandatory separator class meets a digit. -/
theorem dtHasSepBody_all_digits {l : List Char} (h : ∀ c ∈ l, isDig c = true) :
    dtHasSepBody l = none := by
  match l with
  | [] => rfl
  | [a] => simp [dtHasSepBody, takeDigits, h a (by simp)]
  | [a, b] =>
    simp [dtHasSepBody, takeDigits, h a (by simp), h b (by simp)]
  | [a, b, c] =>
    simp [dtHasSepBody, takeDigits, h a (by simp), h b (by simp), h c (by simp)]
  | a :: b :: c :: d :: rest =>
    have h4 : takeDigits 4 (([a, b, c, d] : List Char) ++ rest) = some ([a, b, c, d], rest) :=
      takeDigits_append rest rfl (by
        intro x hx
        rcases List.mem_cons.1 hx with rfl | hx
        · exact h _ (by simp)
        rcases List.mem_cons.1 hx with rfl | hx
        · exact h _ (by simp)
        rcases List.mem_cons.1 hx with rfl | hx
        · exact h _ (by simp)
        rcases List.mem_cons.1 hx with rfl | hx
        · exact h _ (by simp)
        · simp at hx)
    simp only [List.append_eq, List.cons_append, List.nil_append] at h4
    cases rest with
    | nil => simp [dtHasSepBody, h4, takeClass]
    | cons e rest' =>
      have he : isDSep e = false := (isDig_not_sep (h e (by simp))).1
      simp [dtHasSepBody, h4, takeClass, he]

/-- Same for the separated date grammar. -/
theorem dHasSepBody_all_digits {l : List Char} (h : ∀ c ∈ l, isDig c = true) :
    dHasSepBody l = none := by
  match l with
  | [] => rfl
  | [a] => simp [dHasSepBody, takeDigits, h a (by simp)]
  | [a, b] =>
    simp [dHasSepBody, takeDigits, h a (by simp), h b (by simp)]
  | [a, b, c] =>
    simp [dHasSepBody, takeDigits, h a (by simp), h b (by simp), h c (by simp)]
  | a :: b :: c :: d :: rest =>
    have h4 : takeDigits 4 (([a, b, c, d] : List Char) ++ rest) = some ([a, b, c, d], rest) :=
      takeDigits_append rest rfl (by
        intro x hx
        rcases List.mem_cons.1 hx with rfl | hx
        · exact h _ (by simp)
        rcases List.mem_cons.1 hx with rfl | hx
        · exact h _ (by simp)
        rcases List.mem_cons.1 hx with rfl | hx
        · exact h _ (by simp)
        rcases List.mem_cons.1 hx with rfl | hx
        · exact h _ (by simp)
        · simp at hx)
    simp only [List.append_eq, List.cons_append, List.nil_append] at h4
    cases rest with
    | nil => simp [dHasSepBody, h4, takeClass]
    | cons e rest' =>
      have he : isDSep e = false := (isDig_not_sep (h e (by simp))).1
      simp [dHasSepBody, h4, takeClass, he]

theorem findDTHasSep_all_digits {l : List Char} (h : ∀ c ∈ l, isDig c = true) :
    findDTHasSep l = none :=
  scanFind_none fun t ht => dtHasSepBody_all_digits fun c hc => h c (ht.subset hc)

theorem findDateHasSep_all_digits {l : List Char} (h : ∀ c ∈ l, isDig c = true) :
    findDateHasSep l = none :=
  scanFind_none fun t ht => dHasSepBody_all_digits fun c hc => h c (ht.subset hc)

/-! ## The field validator and the construction primitive -/

set_option maxHeartbeats 1000000 in
theorem validator_isSome_iff (req : Bool) (y mo d h mi s : Int) :
    (IsDateTimeFieldValid req y mo d h mi s).isSome = true ↔
      (req = true ∧ (mo < 1 ∨ mo > 12 ∨ h < 0 ∨ h > 23 ∨ mi < 0 ∨ mi > 59 ∨
        s < 0 ∨ s > 59 ∨ d < 1 ∨ d > 31 ∨
        ((mo = 4 ∨ mo = 6 ∨ mo = 9 ∨ mo = 11) ∧ d > 30) ∨
        (mo = 2 ∧ (y % 4 = 0 ∧ (y % 100 ≠ 0 ∨ y % 400 = 0)) ∧ d > 29) ∨
        (mo = 2 ∧ ¬(y % 4 = 0 ∧ (y % 100 ≠ 0 ∨ y % 400 = 0)) ∧ d > 28))) := by
  cases req with
  | false => simp [IsDateTimeFieldValid]
  | true =>
    unfold IsDateTimeFieldValid
    split_ifs with h0 h1 h2 h3 h4 h5 h6 h7 h8 h9 h10 <;>
      first
      | exact absurd h0 (by decide)
      | (simp only [Option.isSome_some, Option.isSome_none, Bool.false_eq_true,
          eq_self_iff_true, true_and, true_iff, false_iff] <;> omega)

/-- `daysInMonth` with the leap test spelled out arithmetically. -/
theorem daysInMonth_eq (y mo : Int) :
    daysInMonth y mo =
      if mo = 2 then (if y % 4 = 0 ∧ (y % 100 ≠ 0 ∨ y % 400 = 0) then 29 else 28)
      else if mo = 4 ∨ mo = 6 ∨ mo = 9 ∨ mo = 11 then 30 else 31 := by
  simp [daysInMonth, isLeap]

theorem validator_none_bounds {y mo d h mi s : Int}
    (hv : IsDateTimeFieldValid true y mo d h mi s = none) :
    1 ≤ mo ∧ mo ≤ 12 ∧ 0 ≤ h ∧ h ≤ 23 ∧ 0 ≤ mi ∧ mi ≤ 59 ∧ 0 ≤ s ∧ s ≤ 59 ∧
      1 ≤ d ∧ d ≤ daysInMonth y mo := by
  have hbig : ¬(mo < 1 ∨ mo > 12 ∨ h < 0 ∨ h > 23 ∨ mi < 0 ∨ mi > 59 ∨
      s < 0 ∨ s > 59 ∨ d < 1 ∨ d > 31 ∨
      ((mo = 4 ∨ mo = 6 ∨ mo = 9 ∨ mo = 11) ∧ d > 30) ∨
      (mo = 2 ∧ (y % 4 = 0 ∧ (y % 100 ≠ 0 ∨ y % 400 = 0)) ∧ d > 29) ∨
      (mo = 2 ∧ ¬(y % 4 = 0 ∧ (y % 100 ≠ 0 ∨ y % 400 = 0)) ∧ d > 28)) := by
    intro hb
    have := (validator_isSome_iff true y mo d h mi s).2 ⟨rfl, hb⟩
    rw [hv] at this
    exact absurd this (by simp)
  rw [daysInMonth_eq]
  split_ifs <;>
    refine ⟨by omega, by omega, by omega, by omega, by omega, by omega, by omega,
      by omega, by omega, by omega⟩

theorem validator_none_of_bounds (req : Bool) {y mo d h mi s : Int}
    (hmo : 1 ≤ mo ∧ mo ≤ 12) (hd : 1 ≤ d ∧ d ≤ daysInMonth y mo)
    (hh : 0 ≤ h ∧ h ≤ 23) (hmi : 0 ≤ mi ∧ mi ≤ 59) (hs : 0 ≤ s ∧ s ≤ 59) :
    IsDateTimeFieldValid req y mo d h mi s = none := by
  rw [daysInMonth_eq] at hd
  rw [← Option.not_isSome_iff_eq_none, Bool.not_eq_true, ← Bool.not_eq_true,
    validator_isSome_iff]
  rintro ⟨-, hb⟩
  revert hd hb
  split_ifs <;> omega

theorem normPair_id {hi lo base : Int} (h0 : 0 ≤ lo) (hb : lo < base) :
    normPair hi lo base = (hi, lo) := by
  simp only [normPair]
  split_ifs <;> first | rfl | (exfalso; omega)

theorem normDate_id {y m d : Int} {fuel : Nat}
    (h1 : 1 ≤ d) (h2 : d ≤ daysInMonth y m) :
    normDate (fuel + 1) y m d = (y, m, d) := by
  rw [normDate]
  rw [if_neg (by omega), if_neg (by omega)]

theorem timeDate_id {y mo d h mi s ns : Int}
    (hmo : 1 ≤ mo ∧ mo ≤ 12) (hd : 1 ≤ d ∧ d ≤ daysInMonth y mo)
    (hh : 0 ≤ h ∧ h ≤ 23) (hmi : 0 ≤ mi ∧ mi ≤ 59) (hs : 0 ≤ s ∧ s ≤ 59)
    (hns : 0 ≤ ns ∧ ns < 1000000000) :
    timeDate y mo d h mi s ns = ⟨y, mo, d, h, mi, s, ns⟩ := by
  have h1 : normPair y (mo - 1) 12 = (y, mo - 1) := normPair_id (by omega) (by omega)
  have h2 : normPair s ns 1000000000 = (s, ns) := normPair_id (by omega) (by omega)
  have h3 : normPair mi s 60 = (mi, s) := normPair_id (by omega) (by omega)
  have h4 : normPair h mi 60 = (h, mi) := normPair_id (by omega) (by omega)
  have h5 : normPair d h 24 = (d, h) := normPair_id (by omega) (by omega)
  have h6 : mo - 1 + 1 = mo := by omega
  have h7 : normDate (d.natAbs + 24) y mo d = (y, mo, d) := by
    have hfuel : d.natAbs + 24 = (d.natAbs + 23) + 1 := by omega
    rw [hfuel, normDate_id hd.1 hd.2]
  simp [timeDate, h1, h2, h3, h4, h5, h6, h7]

/-! ## Decimal rendering, for the round-trip property -/

def digitChar : Nat → Char
  | 0 => '0'
  | 1 => '1'
  | 2 => '2'
  | 3 => '3'
  | 4 => '4'
  | 5 => '5'
  | 6 => '6'
  | 7 => '7'
  | 8 => '8'
  | _ => '9'

theorem isDig_digitChar (n : Nat) : isDig (digitChar n) = true := by
  unfold digitChar
  split <;> decide

theorem digitChar_toNat {n : Nat} (h : n < 10) : (digitChar n).toNat = 48 + n := by
  interval_cases n <;> rfl

/-- A value 0–99 as exactly two decimal digit characters. -/
def pad2 (n : Int) : List Char :=
  [digitChar (n.toNat / 10 % 10), digitChar (n.toNat % 10)]

/-- A value 0–999 as exactly three decimal digit characters. -/
def pad3 (n : Int) : List Char :=
  [digitChar (n.toNat / 100 % 10), digitChar (n.toNat / 10 % 10), digitChar (n.toNat % 10)]

/-- A value 0–9999 as exactly four decimal digit characters. -/
def pad4 (n : Int) : List Char :=
  [digitChar (n.toNat / 1000 % 10), digitChar (n.toNat / 100 % 10),
    digitChar (n.toNat / 10 % 10), digitChar (n.toNat % 10)]

theorem pad2_digits (n : Int) : ∀ c ∈ pad2 n, isDig c = true := by
  intro c hc
  simp only [pad2, List.mem_cons, List.not_mem_nil, or_false] at hc
  rcases hc with rfl | rfl <;> exact isDig_digitChar _

theorem pad3_digits (n : Int) : ∀ c ∈ pad3 n, isDig c = true := by
  intro c hc
  simp only [pad3, List.mem_cons, List.not_mem_nil, or_false] at hc
  rcases hc with rfl | rfl | rfl <;> exact isDig_digitChar _

theorem pad4_digits (n : Int) : ∀ c ∈ pad4 n, isDig c = true := by
  intro c hc
  simp only [pad4, List.mem_cons, List.not_mem_nil, or_false] at hc
  rcases hc with rfl | rfl | rfl | rfl <;> exact isDig_digitChar _

theorem intOf_pad2 {n : Int} (h0 : 0 ≤ n) (h : n ≤ 99) : intOf (pad2 n) = n := by
  simp only [intOf, pad2, digitsToNat, List.foldl]
  rw [digitChar_toNat (by omega), digitChar_toNat (by omega)]
  omega

theorem intOf_pad3 {n : Int} (h0 : 0 ≤ n) (h : n ≤ 999) : intOf (pad3 n) = n := by
  simp only [intOf, pad3, digitsToNat, List.foldl]
  rw [digitChar_toNat (by omega), digitChar_toNat (by omega), digitChar_toNat (by omega)]
  omega

theorem intOf_pad4 {n : Int} (h0 : 0 ≤ n) (h : n ≤ 9999) : intOf (pad4 n) = n := by
  simp only [intOf, pad4, digitsToNat, List.foldl]
  rw [digitChar_toNat (by omega), digitChar_toNat (by omega), digitChar_toNat (by omega),
    digitChar_toNat (by omega)]
  omega

/-- A field tuple rendered in the separated grammar shape
`YYYY-MM-DD HH:MM:SS.mmm`. -/
def renderSep (y mo d h mi s ms : Int) : List Char :=
  pad4 y ++ '-' :: (pad2 mo ++ '-' :: (pad2 d ++ ' ' :: (pad2 h ++ ':' ::
    (pad2 mi ++ ':' :: (pad2 s ++ '.' :: pad3 ms)))))

/-- A field tuple rendered in the unseparated grammar shape
`YYYYMMDDHHMMSSmmm`. -/
def renderNoSep (y mo d h mi s ms : Int) : List Char :=
  pad4 y ++ (pad2 mo ++ (pad2 d ++ (pad2 h ++ (pad2 mi ++ (pad2 s ++ pad3 ms)))))

/-! ## Dispatch structure of the three date/time entry points -/

theorem parseDT_none_iff (req : Bool) (s : List Char) :
    ParseDateTime req s = none ↔
      dtAttempt req findDTHasSep s = none ∧ dtAttempt req findDTNoSep s = none := by
  unfold ParseDateTime
  cases hA : dtAttempt req findDTHasSep s <;> simp

theorem parseD_none_iff (req : Bool) (s : List Char) :
    ParseDate req s = none ↔
      dAttempt req findDateHasSep s = none ∧ dAttempt req findDateNoSep s = none := by
  unfold ParseDate
  cases hA : dAttempt req findDateHasSep s <;> simp

theorem parseT_none_iff (req : Bool) (s : List Char) :
    ParseTime req s = none ↔
      tAttempt req findTimeHasSep s = none ∧ tAttempt req findTimeNoSep s = none := by
  unfold ParseTime
  cases hA : tAttempt req findTimeHasSep s <;> simp

theorem dtAttempt_none_iff (req : Bool) (find : List Char → Option DTCaps) (s : List Char) :
    dtAttempt req find s = none ↔
      (find s = none ∨ ∃ c, find s = some c ∧
        (IsDateTimeFieldValid req (intOf c.y) (intOf c.mo) (intOf c.d) (intOf c.h)
          (intOf c.mi) (intOfOpt c.sec)).isSome = true) := by
  unfold dtAttempt
  cases hf : find s with
  | none => simp
  | some c =>
    by_cases hv : (IsDateTimeFieldValid req (intOf c.y) (intOf c.mo) (intOf c.d)
        (intOf c.h) (intOf c.mi) (intOfOpt c.sec)).isSome = true
    · simp [hv]
    · simp [hv]

theorem dAttempt_none_iff (req : Bool) (find : List Char → Option DCaps) (s : List Char) :
    dAttempt req find s = none ↔
      (find s = none ∨ ∃ c, find s = some c ∧
        (IsDateTimeFieldValid req (intOf c.y) (intOf c.mo) (intOf c.d) 0 0 0).isSome = true) := by
  unfold dAttempt
  cases hf : find s with
  | none => simp
  | some c =>
    by_cases hv : (IsDateTimeFieldValid req (intOf c.y) (intOf c.mo) (intOf c.d)
        0 0 0).isSome = true
    · simp [hv]
    · simp [hv]

theorem tAttempt_none_iff (req : Bool) (find : List Char → Option TCaps) (s : List Char) :
    tAttempt req find s = none ↔
      (find s = none ∨ ∃ c, find s = some c ∧
        (IsDateTimeFieldValid req 0 1 1 (intOf c.h) (intOf c.mi)
          (intOfOpt c.sec)).isSome = true) := by
  unfold tAttempt
  cases hf : find s with
  | none => simp
  | some c =>
    by_cases hv : (IsDateTimeFieldValid req 0 1 1 (intOf c.h) (intOf c.mi)
        (intOfOpt c.sec)).isSome = true
    · simp [hv]
    · simp [hv]

/-! ## The claims -/

/-- Claim C1: `ParseDateTime` first attempts the separated grammar; whenever
that attempt fails (structurally, or because the field validator rejects the
captured fields) it attempts the unseparated grammar with the same validation
step; it returns the timestamp of the first attempt that passes both, and
`none` when both attempts fail. -/
theorem c1_grammar_priority (req : Bool) (s : List Char) :
    (∀ t, dtAttempt req findDTHasSep s = some t → ParseDateTime req s = some t) ∧
    (dtAttempt req findDTHasSep s = none →
      ParseDateTime req s = dtAttempt req findDTNoSep s) ∧
    (∀ t, ParseDateTime req s = some t →
      dtAttempt req findDTHasSep s = some t ∨
        (dtAttempt req findDTHasSep s = none ∧ dtAttempt req findDTNoSep s = some t)) ∧
    (∀ find c, find s = some c →
      (IsDateTimeFieldValid req (intOf c.y) (intOf c.mo) (intOf c.d) (intOf c.h)
        (intOf c.mi) (intOfOpt c.sec)).isSome = true →
      dtAttempt req find s = none) ∧
    (∀ find c, find s = some c →
      IsDateTimeFieldValid req (intOf c.y) (intOf c.mo) (intOf c.d) (intOf c.h)
        (intOf c.mi) (intOfOpt c.sec) = none →
      dtAttempt req find s =
        some (timeDate (intOf c.y) (intOf c.mo) (intOf c.d) (intOf c.h) (intOf c.mi)
          (intOfOpt c.sec) (intOfOpt c.ms * 1000000))) ∧
    (dtAttempt req findDTHasSep s = none → dtAttempt req findDTNoSep s = none →
      ParseDateTime req s = none) := by
  refine ⟨?_, ?_, ?_, ?_, ?_, ?_⟩
  · intro t ht; simp [ParseDateTime, ht]
  · intro hn; simp [ParseDateTime, hn]
  · intro t ht
    unfold ParseDateTime at ht
    cases hA : dtAttempt req findDTHasSep s with
    | some t' =>
      rw [hA] at ht
      simp only [Option.some.injEq] at ht
      exact Or.inl (by rw [ht])
    | none => rw [hA] at ht; exact Or.inr ⟨rfl, ht⟩
  · intro find c hfind hbad
    simp [dtAttempt, hfind, hbad]
  · intro find c hfind hok
    simp [dtAttempt, hfind, hok]
  · intro h1 h2; simp [ParseDateTime, h1, h2]

/-- Witness for C1 at a concrete input on which both attempts fail. -/
theorem c1_grammar_priority_witness : ParseDateTime true ("a".toList) = none :=
  (c1_grammar_priority true ("a".toList)).2.2.2.2.2 (by decide) (by decide)

/-- Claim C2: the validator reports invalid iff the policy flag is enabled and
one of the documented range conditions is violated (with the Go leap-year
rule); with the flag disabled it always reports valid. -/
theorem c2_field_validator (req : Bool) (y mo d h mi s : Int) :
    ((IsDateTimeFieldValid req y mo d h mi s).isSome = true ↔
      (req = true ∧ (mo < 1 ∨ mo > 12 ∨ h < 0 ∨ h > 23 ∨ mi < 0 ∨ mi > 59 ∨
        s < 0 ∨ s > 59 ∨ d < 1 ∨ d > 31 ∨
        ((mo = 4 ∨ mo = 6 ∨ mo = 9 ∨ mo = 11) ∧ d > 30) ∨
        (mo = 2 ∧ (y % 4 = 0 ∧ (y % 100 ≠ 0 ∨ y % 400 = 0)) ∧ d > 29) ∨
        (mo = 2 ∧ ¬(y % 4 = 0 ∧ (y % 100 ≠ 0 ∨ y % 400 = 0)) ∧ d > 28)))) ∧
    (req = false → IsDateTimeFieldValid req y mo d h mi s = none) := by
  refine ⟨validator_isSome_iff req y mo d h mi s, ?_⟩
  rintro rfl
  simp [IsDateTimeFieldValid]

/-- Witness for C2: a month-13 tuple passes when the flag is disabled. -/
theorem c2_field_validator_witness : IsDateTimeFieldValid false 2023 13 1 0 0 0 = none :=
  (c2_field_validator false 2023 13 1 0 0 0).2 rfl

/-- Claim C5 (the code side): the separated date-time grammar matches a
candidate whose every separator is `|`, a character outside the documented
separator sets — the classes `[-|_|\.|]`, `[-|_|\.| |T]`, `[-|_|\.|\:|]`
contain the literal `|`, contradicting the source's own comments. -/
theorem c5_pipe_separator_matches :
    (findDTHasSep ("2010|02|23|15|34".toList)).isSome = true ∧
    ParseDateTime true ("2010|02|23|15|34".toList) =
      some ⟨2010, 2, 23, 15, 34, 0, 0⟩ := by
  decide

/-- Claim C6: with the policy flag disabled, a structurally matching string
with month 22 parses to a normalized timestamp — the month overflow rolls
into the year (2010/22 becomes 2011/10) — instead of returning `none`. -/
theorem c6_overflow_normalized :
    ParseDateTime false ("201022231234".toList) =
      some ⟨2011, 10, 23, 12, 34, 0, 0⟩ := by
  decide

/-- Claim C8: a separated date with no time component is not matched by
`ParseDateTime` (under either state of the policy flag). -/
theorem c8_date_only_no_match :
    ParseDateTime true ("2010-02-23".toList) = none ∧
    ParseDateTime false ("2010-02-23".toList) = none := by
  decide

/-- Claim C9: `ParseDateTime`, `ParseDate` and `ParseTime` are total functions
into an option type, and they return `none` exactly when, for each grammar
tried, either there is no structural match or the field validator rejects the
captured fields — the two failure causes are indistinguishable to the caller,
and the validator's descriptive reason does not appear in the result. -/
theorem c9_failures_collapse (req : Bool) (s : List Char) :
    (ParseDateTime req s = none ↔
      ((findDTHasSep s = none ∨ ∃ c, findDTHasSep s = some c ∧
        (IsDateTimeFieldValid req (intOf c.y) (intOf c.mo) (intOf c.d) (intOf c.h)
          (intOf c.mi) (intOfOpt c.sec)).isSome = true) ∧
       (findDTNoSep s = none ∨ ∃ c, findDTNoSep s = some c ∧
        (IsDateTimeFieldValid req (intOf c.y) (intOf c.mo) (intOf c.d) (intOf c.h)
          (intOf c.mi) (intOfOpt c.sec)).isSome = true))) ∧
    (ParseDate req s = none ↔
      ((findDateHasSep s = none ∨ ∃ c, findDateHasSep s = some c ∧
        (IsDateTimeFieldValid req (intOf c.y) (intOf c.mo) (intOf c.d) 0 0 0).isSome = true) ∧
       (findDateNoSep s = none ∨ ∃ c, findDateNoSep s = some c ∧
        (IsDateTimeFieldValid req (intOf c.y) (intOf c.mo) (intOf c.d) 0 0 0).isSome = true))) ∧
    (ParseTime req s = none ↔
      ((findTimeHasSep s = none ∨ ∃ c, findTimeHasSep s = some c ∧
        (IsDateTimeFieldValid req 0 1 1 (intOf c.h) (intOf c.mi)
          (intOfOpt c.sec)).isSome = true) ∧
       (findTimeNoSep s = none ∨ ∃ c, findTimeNoSep s = some c ∧
        (IsDateTimeFieldValid req 0 1 1 (intOf c.h) (intOf c.mi)
          (intOfOpt c.sec)).isSome = true))) := by
  refine ⟨?_, ?_, ?_⟩
  · rw [parseDT_none_iff, dtAttempt_none_iff, dtAttempt_none_iff]
  · rw [parseD_none_iff, dAttempt_none_iff, dAttempt_none_iff]
  · rw [parseT_none_iff, tAttempt_none_iff, tAttempt_none_iff]

/-- Claim C10: the validator never rejects because of the year itself — any
tuple whose month, day, hour, minute and second are in their documented
ranges (with the February limit for the year's leap status) is valid for
every integer year, including 0 and negative ones, and for months other
than February the verdict does not depend on the year at all. -/
theorem c10_year_unconstrained (req : Bool) (y y2 mo d h mi s : Int) :
    (1 ≤ mo → mo ≤ 12 → 1 ≤ d → d ≤ 31 → 0 ≤ h → h ≤ 23 → 0 ≤ mi → mi ≤ 59 →
      0 ≤ s → s ≤ 59 →
      ((mo = 4 ∨ mo = 6 ∨ mo = 9 ∨ mo = 11) → d ≤ 30) →
      (mo = 2 → (if y % 4 = 0 ∧ (y % 100 ≠ 0 ∨ y % 400 = 0) then d ≤ 29 else d ≤ 28)) →
      IsDateTimeFieldValid req y mo d h mi s = none) ∧
    (mo ≠ 2 → IsDateTimeFieldValid req y mo d h mi s = IsDateTimeFieldValid req y2 mo d h mi s) := by
  constructor
  · intro h1 h2 h3 h4 h5 h6 h7 h8 h9 h10 h11 h12
    refine validator_none_of_bounds req ⟨h1, h2⟩ ⟨h3, ?_⟩ ⟨h5, h6⟩ ⟨h7, h8⟩ ⟨h9, h10⟩
    rw [daysInMonth_eq]
    by_cases hm2 : mo = 2
    · have := h12 hm2
      split_ifs at this ⊢ <;> omega
    · rw [if_neg hm2]
      split_ifs with hm30
      · exact h11 hm30
      · exact h4
  · intro hm2
    unfold IsDateTimeFieldValid
    split_ifs <;> first | rfl | (exfalso; omega)

/-- Witness for C10 at a negative year. -/
theorem c10_year_unconstrained_witness :
    IsDateTimeFieldValid true (-97) 5 31 23 59 59 = none :=
  (c10_year_unconstrained true (-97) 0 5 31 23 59 59).1 (by decide) (by decide)
    (by decide) (by decide) (by decide) (by decide) (by decide) (by decide)
    (by decide) (by decide) (by decide) (by decide)

/-! ## The millisecond group always captures exactly three digits -/

theorem msDot_len {l m : List Char} (h : msDot l = some m) : m.length = 3 := by
  unfold msDot at h
  split at h
  · rw [Option.map_eq_some'] at h
    rcases h with ⟨⟨ds, r⟩, hp, rfl⟩
    exact (takeDigits_eq_some hp).1
  · exact absurd h (by simp)

theorem msOptDot_len {l m : List Char} (h : msOptDot l = some m) : m.length = 3 := by
  unfold msOptDot at h
  split at h <;>
  · rw [Option.map_eq_some'] at h
    rcases h with ⟨⟨ds, r⟩, hp, rfl⟩
    exact (takeDigits_eq_some hp).1

theorem secMsHasSep_ms_len {l m : List Char} (h : (secMsHasSep l).2 = some m) :
    m.length = 3 := by
  unfold secMsHasSep at h
  split at h
  · simp at h
  · split at h
    · simp at h
    · exact msDot_len (by simpa using h)

theorem secMsNoSep_ms_len {l m : List Char} (h : (secMsNoSep l).2 = some m) :
    m.length = 3 := by
  unfold secMsNoSep at h
  split at h
  · simp at h
  · exact msOptDot_len (by simpa using h)

theorem dtHasSepBody_ms_len {l : List Char} {c : DTCaps} (h : dtHasSepBody l = some c) :
    ∀ m, c.ms = some m → m.length = 3 := by
  intro m hm
  unfold dtHasSepBody at h
  simp only [Option.bind_eq_some] at h
  rcases h with ⟨yl, h1, l1, h2, mol, h3, l2, h4, dl, h5, l3, h6, hl, h7, l4, h8, mil, h9, h⟩
  simp only [Option.some.injEq] at h
  subst h
  exact secMsHasSep_ms_len (by simpa using hm)

theorem dtNoSepBody_ms_len {l : List Char} {c : DTCaps} (h : dtNoSepBody l = some c) :
    ∀ m, c.ms = some m → m.length = 3 := by
  intro m hm
  unfold dtNoSepBody at h
  simp only [Option.bind_eq_some] at h
  rcases h with ⟨yl, h1, mol, h2, dl, h3, hl, h4, mil, h5, h⟩
  simp only [Option.some.injEq] at h
  subst h
  exact secMsNoSep_ms_len (by simpa using hm)

theorem tHasSepBody_ms_len {l : List Char} {c : TCaps} (h : tHasSepBody l = some c) :
    ∀ m, c.ms = some m → m.length = 3 := by
  intro m hm
  unfold tHasSepBody at h
  simp only [Option.bind_eq_some] at h
  rcases h with ⟨hl, h1, l1, h2, mil, h3, h⟩
  simp only [Option.some.injEq] at h
  subst h
  exact secMsHasSep_ms_len (by simpa using hm)

theorem tNoSepBody_ms_len {l : List Char} {c : TCaps} (h : tNoSepBody l = some c) :
    ∀ m, c.ms = some m → m.length = 3 := by
  intro m hm
  unfold tNoSepBody at h
  simp only [Option.bind_eq_some] at h
  rcases h with ⟨hl, h1, mil, h2, h⟩
  simp only [Option.some.injEq] at h
  subst h
  exact secMsNoSep_ms_len (by simpa using hm)

/-- Claim C4: the millisecond field is honored only when exactly three digits
were captured — every millisecond capture of the four date-time/time grammars
has length 3, and a shorter fragment after the seconds is discarded, as in the
spec's scenario, which yields 15:34:56.000 from a 2-digit `.78` fragment. -/
theorem c4_ms_exactly_three :
    ParseTime true ("abc15:34-56.78ddd.jpg".toList) = some ⟨0, 1, 1, 15, 34, 56, 0⟩ ∧
    (∀ s c, findDTHasSep s = some c → ∀ m, c.ms = some m → m.length = 3) ∧
    (∀ s c, findDTNoSep s = some c → ∀ m, c.ms = some m → m.length = 3) ∧
    (∀ s c, findTimeHasSep s = some c → ∀ m, c.ms = some m → m.length = 3) ∧
    (∀ s c, findTimeNoSep s = some c → ∀ m, c.ms = some m → m.length = 3) := by
  refine ⟨by decide, ?_, ?_, ?_, ?_⟩
  · intro s c hf m hm
    unfold findDTHasSep at hf
    obtain ⟨t, -, hb⟩ := scanFind_eq_some hf
    exact dtHasSepBody_ms_len hb m hm
  · intro s c hf m hm
    unfold findDTNoSep at hf
    obtain ⟨t, -, hb⟩ := scanFind_eq_some hf
    exact dtNoSepBody_ms_len hb m hm
  · intro s c hf m hm
    unfold findTimeHasSep at hf
    obtain ⟨t, -, hb⟩ := scanFind_eq_some hf
    exact tHasSepBody_ms_len hb m hm
  · intro s c hf m hm
    unfold findTimeNoSep at hf
    obtain ⟨t, -, hb⟩ := scanFind_eq_some hf
    exact tNoSepBody_ms_len hb m hm

/-- Witness for C4 on a fully separated date-time with a 3-digit millisecond
capture. -/
theorem c4_ms_exactly_three_witness : ("345".toList).length = 3 :=
  c4_ms_exactly_three.2.1 ("2010-02-23 10:11:12.345".toList)
    ⟨"2010".toList, "02".toList, "23".toList, "10".toList, "11".toList,
      some ("12".toList), some ("345".toList)⟩ (by decide) ("345".toList) rfl

/-! ## Recovery of epoch timestamps, and the newline limitation -/

theorem scanFind_of_body {α : Type} {body : List Char → Option α} {l : List Char} {r : α}
    (h : body l = some r) : scanFind body l = some r := by
  cases l with
  | nil => simpa [scanFind] using h
  | cons c l' => simp [scanFind, h]

/-- Counterexample to claim C3 as stated: this input contains a digit (indeed
a full 10-digit epoch run after one noise character), yet `ParseUnixTime`
returns the absent result, because the anchored lazy prefix `^.*?` of the Go
regex cannot absorb the leading newline (`.` does not match `\n`). -/
theorem c3_newline_counterexample :
    ("\n1234567890".toList).any isDig = true ∧
    ParseUnixTime ("\n1234567890".toList) = none := by
  decide

/-- Claim C3, amended for the newline limitation: on any input with a digit
whose preceding characters contain no newline the parse always yields a
timestamp (no validation is involved — `ParseUnixTime` never consults the
field validator); and a maximal digit run of length 10–13 embedded in
digit-free, newline-free noise is recovered as: seconds from its first ten
digits, milliseconds only when the run has exactly 13 digits. -/
theorem c3_unix_time_recovery :
    (∀ pre c rest, (∀ a ∈ pre, a ≠ '\n') → isDig c = true →
      (ParseUnixTime (pre ++ c :: rest)).isSome = true) ∧
    (∀ pre run suf, (∀ a ∈ pre, isDig a = false ∧ a ≠ '\n') →
      (∀ a ∈ run, isDig a = true) →
      (∀ a, suf.head? = some a → isDig a = false) →
      10 ≤ run.length → run.length ≤ 13 →
      ParseUnixTime (pre ++ (run ++ suf)) =
        some (intOf (run.take 10),
          if run.length = 13 then intOf (run.drop 10) * 1000000 else 0)) := by
  constructor
  · intro pre c rest hpre hc
    have hbody : (unixBody (c :: rest)).isSome = true := by
      unfold unixBody
      simp [takeDigitsUpTo, hc]
    have hs := scanFind_isSome_append hpre hbody
    unfold ParseUnixTime findUnix
    cases hf : scanFind unixBody (pre ++ c :: rest) with
    | none => rw [hf] at hs; simp at hs
    | some su => simp
  · intro pre run suf hpre hrun hsuf h10 h13
    have hscan := scanFind_skip (fun c l' hnd => unixBody_nondigit hnd) pre (run ++ suf) hpre
    have hup : takeDigitsUpTo 10 (run ++ suf) = (run.take 10, run.drop 10 ++ suf) :=
      takeDigitsUpTo_append suf (by omega) hrun
    have htake : run.take 10 ≠ [] := by
      intro hemp
      have hlentake : (run.take 10).length = 0 := by rw [hemp]; rfl
      rw [List.length_take] at hlentake
      omega
    by_cases hlen : run.length = 13
    · have hdrop3 : (run.drop 10).length = 3 := by simp [List.length_drop]; omega
      have h3 : takeDigits 3 (run.drop 10 ++ suf) = some (run.drop 10, suf) :=
        takeDigits_append suf hdrop3 (fun a ha => hrun a (List.drop_subset _ _ ha))
      have hbody : unixBody (run ++ suf) = some (run.take 10, some (run.drop 10)) := by
        unfold unixBody
        rw [hup]
        simp [htake, h3]
      have hfind : findUnix (pre ++ (run ++ suf)) = some (run.take 10, some (run.drop 10)) := by
        unfold findUnix
        rw [hscan]
        exact scanFind_of_body hbody
      unfold ParseUnixTime
      rw [hfind]
      simp [hlen]
    · have hdroplt : (run.drop 10).length < 3 := by simp [List.length_drop]; omega
      have h3 : takeDigits 3 (run.drop 10 ++ suf) = none :=
        takeDigits_none_short hdroplt (fun a ha => hrun a (List.drop_subset _ _ ha)) hsuf
      have hbody : unixBody (run ++ suf) = some (run.take 10, none) := by
        unfold unixBody
        rw [hup]
        simp [htake, h3]
      have hfind : findUnix (pre ++ (run ++ suf)) = some (run.take 10, none) := by
        unfold findUnix
        rw [hscan]
        exact scanFind_of_body hbody
      unfold ParseUnixTime
      rw [hfind]
      simp [hlen]

/-- Witness for C3 on the spec's own example `"155386750975abcd"`: a 12-digit
run yields the first ten digits as seconds and drops the milliseconds. -/
theorem c3_unix_time_recovery_witness :
    ParseUnixTime ("155386750975abcd".toList) = some (1553867509, 0) := by
  have h := c3_unix_time_recovery.2 [] ("155386750975".toList) ("abcd".toList)
    (by decide) (by decide) (by decide) (by decide) (by decide)
  simpa using h

/-! ## Round-trip of validated tuples through both grammars -/

theorem isBSep_digitChar (n : Nat) : isBSep (digitChar n) = false :=
  (isDig_not_sep (isDig_digitChar n)).2.1

theorem digitChar_ne_dot (n : Nat) : digitChar n ≠ '.' :=
  (isDig_not_sep (isDig_digitChar n)).2.2.2.1

theorem dtHasSepBody_renderSep (y mo d h mi s ms : Int) :
    dtHasSepBody (renderSep y mo d h mi s ms) =
      some ⟨pad4 y, pad2 mo, pad2 d, pad2 h, pad2 mi, some (pad2 s), some (pad3 ms)⟩ := by
  simp [renderSep, dtHasSepBody, pad4, pad3, pad2, takeDigits, takeD12, takeClass,
    isDig_digitChar, secMsHasSep, msDot,
    show isDSep '-' = true from by decide,
    show isBSep ' ' = true from by decide,
    show isTSep ':' = true from by decide]

theorem dtNoSepBody_renderNoSep (y mo d h mi s ms : Int) :
    dtNoSepBody (renderNoSep y mo d h mi s ms) =
      some ⟨pad4 y, pad2 mo, pad2 d, pad2 h, pad2 mi, some (pad2 s), some (pad3 ms)⟩ := by
  simp [renderNoSep, dtNoSepBody, pad4, pad3, pad2, takeDigits, skipBSep,
    secMsNoSep, msOptDot, isDig_digitChar, isBSep_digitChar, digitChar_ne_dot]

/-- Claim C7: a tuple accepted by the field validator (with the year
representable in four digits and the millisecond formatted as exactly three
digits) survives a round trip through either grammar shape: rendering and
re-parsing with `ParseDateTime` returns a timestamp with exactly the
original fields. -/
theorem c7_round_trip (y mo d h mi s ms : Int)
    (hy0 : 0 ≤ y) (hy : y ≤ 9999) (hms0 : 0 ≤ ms) (hms : ms ≤ 999)
    (hval : IsDateTimeFieldValid true y mo d h mi s = none) :
    ParseDateTime true (renderSep y mo d h mi s ms) =
      some ⟨y, mo, d, h, mi, s, ms * 1000000⟩ ∧
    ParseDateTime true (renderNoSep y mo d h mi s ms) =
      some ⟨y, mo, d, h, mi, s, ms * 1000000⟩ := by
  obtain ⟨hmo1, hmo2, hh1, hh2, hmi1, hmi2, hs1, hs2, hd1, hd2⟩ := validator_none_bounds hval
  have hdm31 : daysInMonth y mo ≤ 31 := by rw [daysInMonth_eq]; split_ifs <;> omega
  have hiy : intOf (pad4 y) = y := intOf_pad4 hy0 hy
  have himo : intOf (pad2 mo) = mo := intOf_pad2 (by omega) (by omega)
  have hid : intOf (pad2 d) = d := intOf_pad2 (by omega) (by omega)
  have hih : intOf (pad2 h) = h := intOf_pad2 (by omega) (by omega)
  have himi : intOf (pad2 mi) = mi := intOf_pad2 (by omega) (by omega)
  have his : intOf (pad2 s) = s := intOf_pad2 (by omega) (by omega)
  have hims : intOf (pad3 ms) = ms := intOf_pad3 hms0 hms
  have htd : timeDate y mo d h mi s (ms * 1000000) = ⟨y, mo, d, h, mi, s, ms * 1000000⟩ :=
    timeDate_id ⟨hmo1, hmo2⟩ ⟨hd1, hd2⟩ ⟨hh1, hh2⟩ ⟨hmi1, hmi2⟩ ⟨hs1, hs2⟩
      ⟨by omega, by omega⟩
  constructor
  · have hfind : findDTHasSep (renderSep y mo d h mi s ms) =
        some ⟨pad4 y, pad2 mo, pad2 d, pad2 h, pad2 mi, some (pad2 s), some (pad3 ms)⟩ := by
      unfold findDTHasSep
      exact scanFind_of_body (dtHasSepBody_renderSep y mo d h mi s ms)
    have hA : dtAttempt true findDTHasSep (renderSep y mo d h mi s ms) =
        some ⟨y, mo, d, h, mi, s, ms * 1000000⟩ := by
      unfold dtAttempt
      rw [hfind]
      simp only [intOfOpt, Option.getD_some, hiy, himo, hid, hih, himi, his, hims, hval,
        Option.isSome_none, Bool.false_eq_true, if_false, htd]
    simp [ParseDateTime, hA]
  · have hdigits : ∀ c ∈ renderNoSep y mo d h mi s ms, isDig c = true := by
      intro c hc
      simp only [renderNoSep, List.mem_append] at hc
      rcases hc with hc | hc | hc | hc | hc | hc | hc
      · exact pad4_digits _ c hc
      · exact pad2_digits _ c hc
      · exact pad2_digits _ c hc
      · exact pad2_digits _ c hc
      · exact pad2_digits _ c hc
      · exact pad2_digits _ c hc
      · exact pad3_digits _ c hc
    have hAhas : dtAttempt true findDTHasSep (renderNoSep y mo d h mi s ms) = none := by
      simp [dtAttempt, findDTHasSep_all_digits hdigits]
    have hfindNo : findDTNoSep (renderNoSep y mo d h mi s ms) =
        some ⟨pad4 y, pad2 mo, pad2 d, pad2 h, pad2 mi, some (pad2 s), some (pad3 ms)⟩ := by
      unfold findDTNoSep
      exact scanFind_of_body (dtNoSepBody_renderNoSep y mo d h mi s ms)
    have hB : dtAttempt true findDTNoSep (renderNoSep y mo d h mi s ms) =
        some ⟨y, mo, d, h, mi, s, ms * 1000000⟩ := by
      unfold dtAttempt
      rw [hfindNo]
      simp only [intOfOpt, Option.getD_some, hiy, himo, hid, hih, himi, his, hims, hval,
        Option.isSome_none, Bool.false_eq_true, if_false, htd]
    simp [ParseDateTime, hAhas, hB]

/-- Witness for C7 at the tuple (2010, 2, 23, 15, 34, 56, 789). -/
theorem c7_round_trip_witness :
    ParseDateTime true (renderSep 2010 2 23 15 34 56 789) =
      some ⟨2010, 2, 23, 15, 34, 56, 789000000⟩ ∧
    ParseDateTime true (renderNoSep 2010 2 23 15 34 56 789) =
      some ⟨2010, 2, 23, 15, 34, 56, 789000000⟩ :=
  c7_round_trip 2010 2 23 15 34 56 789 (by decide) (by decide) (by decide) (by decide)
    (by decide)
